import Mathlib

/-!
Verification of the uma stat-calculator app (React Native, `src/src/components/index.tsx`).

The file shallowly embeds the app's pure logic:

* the `Stats` record (five (current, max) pairs) and the evaluation engine
  `calculateEvaluation` with its distance/strategy coefficient tables and the
  rating thresholds `getRating`;
* the number-extraction step of `performOCR`: the JavaScript global regex match
  `text.match(/\d{3,4}/g)` (greedy, non-overlapping, left-to-right) followed by
  positional mapping of the first ten matches into a `Stats` record;
* the app's state transitions (`captureAndAnalyze` success/failure paths,
  `handleStatChange`, the distance and strategy button handlers) as a `step`
  function on an `AppState` record.

JavaScript numbers are modelled as `ℚ` (the coefficient arithmetic is exact at
this scale), `Math.round` as `fun q => ⌊q + 1/2⌋` (round half towards +∞), and
`parseInt` as an `Option Int`-valued decimal parser (`none` for NaN).
-/

namespace Uma

section

attribute [local semireducible] Rat.mul Rat.add Rat.inv Rat.sub Rat.ofScientific

/-- One stat's (current, max) pair, e.g. `stats.speed` in the source. -/
structure StatEntry where
  current : Int
  max : Int
  deriving DecidableEq

/-- The `Stats` type of the source: five named (current, max) pairs. -/
structure Stats where
  speed : StatEntry
  stamina : StatEntry
  power : StatEntry
  guts : StatEntry
  wisdom : StatEntry
  deriving DecidableEq

/-- The four distance categories (`'short' | 'mile' | 'middle' | 'long'`). -/
inductive Distance where
  | short
  | mile
  | middle
  | long
  deriving DecidableEq

/-- The four strategy categories (`'nige' | 'senko' | 'sashi' | 'oikomi'`),
i.e. front-runner, pace-chaser, late-surger, closer. -/
inductive Strategy where
  | nige
  | senko
  | sashi
  | oikomi
  deriving DecidableEq

/-- A five-component vector of rationals: used both for the rows of the
coefficient tables and for the per-stat `evaluation` object. -/
structure StatVec where
  speed : ℚ
  stamina : ℚ
  power : ℚ
  guts : ℚ
  wisdom : ℚ
  deriving DecidableEq

/-- The `distanceCoef` table of `calculateEvaluation` (source lines 220-225). -/
def distanceCoef : Distance → StatVec
  | .short => ⟨1.0, 0.5, 1.0, 0.5, 0.5⟩
  | .mile => ⟨1.0, 0.7, 1.0, 0.7, 0.7⟩
  | .middle => ⟨1.0, 1.0, 1.0, 1.0, 1.0⟩
  | .long => ⟨0.8, 1.2, 0.8, 1.2, 1.2⟩

/-- The `strategyCoef` table of `calculateEvaluation` (source lines 227-232). -/
def strategyCoef : Strategy → StatVec
  | .nige => ⟨1.2, 1.1, 1.0, 1.0, 0.9⟩
  | .senko => ⟨1.1, 1.0, 1.1, 1.0, 1.0⟩
  | .sashi => ⟨1.0, 1.0, 1.1, 1.1, 1.0⟩
  | .oikomi => ⟨0.9, 1.0, 1.2, 1.2, 1.1⟩

/-- JavaScript `Math.round`: round to the nearest integer, halves towards +∞. -/
def mathRound (q : ℚ) : Int := (q + 1/2).floor

/-- The nested `getRating` function of `calculateEvaluation` (source lines
246-253): the fixed descending threshold table. -/
def getRating (total : Int) : String :=
  if total ≥ 6000 then "SS"
  else if total ≥ 5500 then "S"
  else if total ≥ 5000 then "A+"
  else if total ≥ 4500 then "A"
  else if total ≥ 4000 then "B"
  else "C"

/-- The `CalculatedResult` type of the source: per-stat scores (kept
unrounded, as in the source), rounded total, and rating label. -/
structure CalculatedResult where
  individual : StatVec
  total : Int
  rating : String
  deriving DecidableEq

/-- `calculateEvaluation` (source lines 215-260): per-stat score =
`current × distanceCoef × strategyCoef`; total = `Math.round` of the sum of
the five unrounded scores; rating from `getRating`. -/
def calculateEvaluation (stats : Stats) (distance : Distance) (strategy : Strategy) :
    CalculatedResult :=
  let evaluation : StatVec :=
    { speed := (stats.speed.current : ℚ) * (distanceCoef distance).speed *
        (strategyCoef strategy).speed
      stamina := (stats.stamina.current : ℚ) * (distanceCoef distance).stamina *
        (strategyCoef strategy).stamina
      power := (stats.power.current : ℚ) * (distanceCoef distance).power *
        (strategyCoef strategy).power
      guts := (stats.guts.current : ℚ) * (distanceCoef distance).guts *
        (strategyCoef strategy).guts
      wisdom := (stats.wisdom.current : ℚ) * (distanceCoef distance).wisdom *
        (strategyCoef strategy).wisdom }
  let total := mathRound (evaluation.speed + evaluation.stamina + evaluation.power +
    evaluation.guts + evaluation.wisdom)
  { individual := evaluation, total := total, rating := getRating total }

/-- The numeric value of a digit token: models JavaScript `parseInt` applied
to one of the all-digit strings produced by the regex match. -/
def parseDigits (l : List Char) : Nat :=
  l.foldl (fun n c => 10 * n + (c.toNat - '0'.toNat)) 0

/-- Fuel-indexed scan implementing the JavaScript global regex match
`text.match(/\d{3,4}/g)` of `performOCR` (source line 195): at each position,
if a run of at least 3 digits starts there, the greedy quantifier matches
`min 4 run` digits and the scan resumes right after the match (matches are
non-overlapping); otherwise the scan advances one character.  The fuel only
forces termination; `extractTokens` supplies enough. -/
def extractTokensF : Nat → List Char → List (List Char)
  | 0, _ => []
  | _, [] => []
  | fuel + 1, c :: rest =>
    if 3 ≤ ((c :: rest).takeWhile Char.isDigit).length then
      (c :: rest).take (min 4 ((c :: rest).takeWhile Char.isDigit).length) ::
        extractTokensF fuel
          ((c :: rest).drop (min 4 ((c :: rest).takeWhile Char.isDigit).length))
    else
      extractTokensF fuel rest

/-- All matches of `/\d{3,4}/g` in the text, in order of appearance. -/
def extractTokens (text : List Char) : List (List Char) :=
  extractTokensF text.length text

/-- The pure extraction step of `performOCR` (source lines 195-207): collect
the matches of `/\d{3,4}/g`; if fewer than 10, fail; otherwise parse the
first ten matches and map them positionally into a Stats record. -/
def performOCR (text : List Char) : Option Stats :=
  let numbers := (extractTokens text).map parseDigits
  if numbers.length < 10 then none
  else some {
    speed := ⟨(numbers.getD 0 0 : Int), (numbers.getD 1 0 : Int)⟩
    stamina := ⟨(numbers.getD 2 0 : Int), (numbers.getD 3 0 : Int)⟩
    power := ⟨(numbers.getD 4 0 : Int), (numbers.getD 5 0 : Int)⟩
    guts := ⟨(numbers.getD 6 0 : Int), (numbers.getD 7 0 : Int)⟩
    wisdom := ⟨(numbers.getD 8 0 : Int), (numbers.getD 9 0 : Int)⟩ }

/-- Fuel-indexed decomposition of a text into its maximal runs of consecutive
digits, in order of appearance (a reference notion used to state claims about
the regex scan; not itself part of the source). -/
def maximalRunsF : Nat → List Char → List (List Char)
  | 0, _ => []
  | _, [] => []
  | fuel + 1, c :: rest =>
    if c.isDigit then
      (c :: rest).takeWhile Char.isDigit ::
        maximalRunsF fuel ((c :: rest).dropWhile Char.isDigit)
    else
      maximalRunsF fuel rest

/-- The maximal digit runs of a text, in order of appearance. -/
def maximalRuns (text : List Char) : List (List Char) :=
  maximalRunsF text.length text

/-- Fuel-indexed greedy chunking of a single digit run, as `/\d{3,4}/g`
consumes it: while at least 3 characters remain, emit the next
`min 4 remaining` characters as one token; a remainder of 1 or 2 characters
is dropped. -/
def greedyChunksF : Nat → List Char → List (List Char)
  | 0, _ => []
  | fuel + 1, run =>
    if 3 ≤ run.length then
      run.take (min 4 run.length) :: greedyChunksF fuel (run.drop (min 4 run.length))
    else []

/-- Greedy chunking of a single digit run into `/\d{3,4}/g` tokens. -/
def greedyChunks (run : List Char) : List (List Char) :=
  greedyChunksF run.length run

example : extractTokens (String.toList "12345") = [String.toList "1234"] := by decide
example : extractTokens (String.toList "12 345 6789x567890") =
    [String.toList "345", String.toList "6789", String.toList "5678"] := by decide
example : performOCR (String.toList "12") = none := by decide
example : (extractTokens (String.toList "100 200 300 400 500 600 700 800 900 110")).map
    parseDigits = [100, 200, 300, 400, 500, 600, 700, 800, 900, 110] := by decide

/-- JavaScript `parseInt(value)` (radix 10 inferred), as used by
`handleStatChange`: skip leading whitespace, read an optional sign and then
the maximal leading run of decimal digits; `none` models `NaN` (no digits).
(The hexadecimal `0x` prefix special case of `parseInt` is not modelled; no
claim depends on it.) -/
def jsParseInt (s : List Char) : Option Int :=
  let s1 := s.dropWhile (fun c => c = ' ' || c = '\t' || c = '\n' || c = '\r')
  match s1 with
  | '-' :: rest =>
    if (rest.takeWhile Char.isDigit).length = 0 then none
    else some (-(parseDigits (rest.takeWhile Char.isDigit) : Int))
  | '+' :: rest =>
    if (rest.takeWhile Char.isDigit).length = 0 then none
    else some (parseDigits (rest.takeWhile Char.isDigit) : Int)
  | _ =>
    if (s1.takeWhile Char.isDigit).length = 0 then none
    else some (parseDigits (s1.takeWhile Char.isDigit) : Int)

/-- The five stat names, for addressing a field in `handleStatChange`. -/
inductive StatName where
  | speed
  | stamina
  | power
  | guts
  | wisdom
  deriving DecidableEq

/-- Which half of a (current, max) pair `handleStatChange` edits. -/
inductive Field where
  | current
  | max
  deriving DecidableEq

/-- Functional update of one stat field, as in
`{ ...stats, [stat]: { ...stats[stat], [field]: v } }`. -/
def updateStat (s : Stats) (name : StatName) (f : Field) (v : Int) : Stats :=
  match name, f with
  | .speed, .current => { s with speed := { s.speed with current := v } }
  | .speed, .max => { s with speed := { s.speed with max := v } }
  | .stamina, .current => { s with stamina := { s.stamina with current := v } }
  | .stamina, .max => { s with stamina := { s.stamina with max := v } }
  | .power, .current => { s with power := { s.power with current := v } }
  | .power, .max => { s with power := { s.power with max := v } }
  | .guts, .current => { s with guts := { s.guts with current := v } }
  | .guts, .max => { s with guts := { s.guts with max := v } }
  | .wisdom, .current => { s with wisdom := { s.wisdom with current := v } }
  | .wisdom, .max => { s with wisdom := { s.wisdom with max := v } }

/-- The zeroed StatBlock installed on extraction failure (source lines
156-162). -/
def zeroStats : Stats := ⟨⟨0, 0⟩, ⟨0, 0⟩, ⟨0, 0⟩, ⟨0, 0⟩, ⟨0, 0⟩⟩

/-- The app's state relevant to the claims: the `stats`, `calculated`,
`distance` and `strategy` `useState` cells of `App`. -/
structure AppState where
  stats : Option Stats
  calculated : Option CalculatedResult
  distance : Distance
  strategy : Strategy
  deriving DecidableEq

/-- The user/OCR events that create or change the StatBlock or a category
selection.  A `capture` event carries the recognized text; whether it is a
success or a failure is decided by `performOCR`, as in `captureAndAnalyze`. -/
inductive Event where
  | capture (text : List Char)
  | statChange (name : StatName) (f : Field) (value : List Char)
  | selectDistance (d : Distance)
  | selectStrategy (g : Strategy)

/-- One state transition of the app:
* `capture`: `captureAndAnalyze` (source lines 150-163) — on OCR success set
  the stats and recompute `calculated`; on failure install `zeroStats`
  without touching `calculated`;
* `statChange`: `handleStatChange` (source lines 262-270) — no-op when
  `stats` is null, otherwise store `parseInt(value) || 0` in the addressed
  field and recompute;
* `selectDistance` / `selectStrategy`: the button handlers (source lines
  356-361 and 381-385) — set the category and, when stats exist, recompute
  with the new category. -/
def step (st : AppState) (e : Event) : AppState :=
  match e with
  | .capture text =>
    match performOCR text with
    | some s =>
      { st with
        stats := some s
        calculated := some (calculateEvaluation s st.distance st.strategy) }
    | none => { st with stats := some zeroStats }
  | .statChange name f value =>
    match st.stats with
    | none => st
    | some s =>
      let s' := updateStat s name f ((jsParseInt value).getD 0)
      { st with
        stats := some s'
        calculated := some (calculateEvaluation s' st.distance st.strategy) }
  | .selectDistance d =>
    { st with
      distance := d
      calculated := match st.stats with
        | some s => some (calculateEvaluation s d st.strategy)
        | none => st.calculated }
  | .selectStrategy g =>
    { st with
      strategy := g
      calculated := match st.stats with
        | some s => some (calculateEvaluation s st.distance g)
        | none => st.calculated }

/-- The initial state of `App` (source lines 51-54): null stats and result,
middle distance, nige strategy. -/
def initState : AppState := ⟨none, none, .middle, .nige⟩

/-- Run a sequence of events from the initial state: the reachable states of
the app are exactly the values of `runEvents`. -/
def runEvents (es : List Event) : AppState :=
  es.foldl step initState

/-- Non-negativity of every field of a StatBlock. -/
def NonnegStats (s : Stats) : Prop :=
  0 ≤ s.speed.current ∧ 0 ≤ s.speed.max ∧
  0 ≤ s.stamina.current ∧ 0 ≤ s.stamina.max ∧
  0 ≤ s.power.current ∧ 0 ≤ s.power.max ∧
  0 ≤ s.guts.current ∧ 0 ≤ s.guts.max ∧
  0 ≤ s.wisdom.current ∧ 0 ≤ s.wisdom.max

/-- An event whose stored value is non-negative: any capture or category
selection, and a stat edit whose input parses (with the `|| 0` fallback) to a
non-negative number. -/
def GoodEvent : Event → Prop
  | .statChange _ _ value => 0 ≤ (jsParseInt value).getD 0
  | _ => True

example : jsParseInt (String.toList "-500") = some (-500) := by decide
example : jsParseInt (String.toList "abc") = none := by decide
example : jsParseInt (String.toList " 42x") = some 42 := by decide

theorem length_takeWhile {α} (p : α → Bool) (l : List α) :
    (l.takeWhile p).length ≤ l.length := by
  induction l with
  | nil => simp
  | cons a l ih =>
    by_cases h : p a
    · rw [List.takeWhile_cons_of_pos h]; simpa using ih
    · rw [List.takeWhile_cons_of_neg h]; simp

theorem head_dropWhile_false {α} (p : α → Bool) :
    ∀ (l : List α) (c : α), (l.dropWhile p).head? = some c → p c = false := by
  intro l
  induction l with
  | nil => intro c h; simp [List.dropWhile] at h
  | cons a l ih =>
    intro c h
    by_cases hp : p a
    · rw [List.dropWhile_cons_of_pos hp] at h
      exact ih c h
    · rw [List.dropWhile_cons_of_neg hp] at h
      simp only [List.head?_cons, Option.some.injEq] at h
      subst h
      simpa using hp

theorem takeWhile_append_of_all {α} (p : α → Bool) (ds t : List α)
    (hd : ∀ c ∈ ds, p c) (ht : ∀ c, t.head? = some c → p c = false) :
    (ds ++ t).takeWhile p = ds := by
  induction ds with
  | nil =>
    cases t with
    | nil => rfl
    | cons c r =>
      simp only [List.nil_append]
      rw [List.takeWhile_cons_of_neg]
      simp [ht c rfl]
  | cons d ds ih =>
    simp only [List.cons_append]
    rw [List.takeWhile_cons_of_pos (hd d (by simp))]
    rw [ih (fun c hc => hd c (by simp [hc]))]

theorem extractTokensF_nil (fuel : Nat) : extractTokensF fuel [] = [] := by
  cases fuel <;> rfl

theorem maximalRunsF_nil (fuel : Nat) : maximalRunsF fuel [] = [] := by
  cases fuel <;> rfl

theorem greedyChunksF_nil (fuel : Nat) : greedyChunksF fuel [] = [] := by
  cases fuel <;> rfl

theorem extractTokensF_congr :
    ∀ (f₁ f₂ : Nat) (l : List Char), l.length ≤ f₁ → l.length ≤ f₂ →
      extractTokensF f₁ l = extractTokensF f₂ l := by
  intro f₁
  induction f₁ with
  | zero =>
    intro f₂ l h₁ _
    rw [List.eq_nil_of_length_eq_zero (Nat.le_zero.mp h₁)]
    rw [extractTokensF_nil, extractTokensF_nil]
  | succ n ih =>
    intro f₂ l h₁ h₂
    cases l with
    | nil => rw [extractTokensF_nil, extractTokensF_nil]
    | cons c rest =>
      cases f₂ with
      | zero => simp at h₂
      | succ m =>
        simp only [List.length_cons] at h₁ h₂
        have hL : ((c :: rest).takeWhile Char.isDigit).length ≤ rest.length + 1 := by
          simpa using length_takeWhile Char.isDigit (c :: rest)
        simp only [extractTokensF]
        by_cases h : 3 ≤ ((c :: rest).takeWhile Char.isDigit).length
        · rw [if_pos h, if_pos h]
          congr 1
          apply ih
          · rw [List.length_drop]; simp only [List.length_cons]; omega
          · rw [List.length_drop]; simp only [List.length_cons]; omega
        · rw [if_neg h, if_neg h]
          exact ih _ _ (by omega) (by omega)

theorem maximalRunsF_congr :
    ∀ (f₁ f₂ : Nat) (l : List Char), l.length ≤ f₁ → l.length ≤ f₂ →
      maximalRunsF f₁ l = maximalRunsF f₂ l := by
  intro f₁
  induction f₁ with
  | zero =>
    intro f₂ l h₁ _
    rw [List.eq_nil_of_length_eq_zero (Nat.le_zero.mp h₁)]
    rw [maximalRunsF_nil, maximalRunsF_nil]
  | succ n ih =>
    intro f₂ l h₁ h₂
    cases l with
    | nil => rw [maximalRunsF_nil, maximalRunsF_nil]
    | cons c rest =>
      cases f₂ with
      | zero => simp at h₂
      | succ m =>
        simp only [List.length_cons] at h₁ h₂
        simp only [maximalRunsF]
        by_cases h : c.isDigit
        · rw [if_pos h, if_pos h]
          congr 1
          have hdl : ((c :: rest).dropWhile Char.isDigit).length ≤ rest.length := by
            rw [List.dropWhile_cons_of_pos h]
            have h1 : (rest.dropWhile Char.isDigit).length +
                (rest.takeWhile Char.isDigit).length = rest.length := by
              have h2 := congrArg List.length (rest.takeWhile_append_dropWhile Char.isDigit)
              simp only [List.length_append] at h2
              omega
            omega
          exact ih _ _ (by omega) (by omega)
        · rw [if_neg h, if_neg h]
          exact ih _ _ (by omega) (by omega)

theorem greedyChunksF_congr :
    ∀ (f₁ f₂ : Nat) (l : List Char), l.length ≤ f₁ → l.length ≤ f₂ →
      greedyChunksF f₁ l = greedyChunksF f₂ l := by
  intro f₁
  induction f₁ with
  | zero =>
    intro f₂ l h₁ _
    rw [List.eq_nil_of_length_eq_zero (Nat.le_zero.mp h₁)]
    rw [greedyChunksF_nil, greedyChunksF_nil]
  | succ n ih =>
    intro f₂ l h₁ h₂
    cases f₂ with
    | zero =>
      rw [List.eq_nil_of_length_eq_zero (Nat.le_zero.mp h₂)]
      rw [greedyChunksF_nil, greedyChunksF_nil]
    | succ m =>
      simp only [greedyChunksF]
      by_cases h : 3 ≤ l.length
      · rw [if_pos h, if_pos h]
        congr 1
        apply ih
        · rw [List.length_drop]; omega
        · rw [List.length_drop]; omega
      · rw [if_neg h, if_neg h]

theorem extractTokens_cons_match (c : Char) (rest : List Char)
    (h : 3 ≤ ((c :: rest).takeWhile Char.isDigit).length) :
    extractTokens (c :: rest) =
      (c :: rest).take (min 4 ((c :: rest).takeWhile Char.isDigit).length) ::
        extractTokens
          ((c :: rest).drop (min 4 ((c :: rest).takeWhile Char.isDigit).length)) := by
  show extractTokensF (rest.length + 1) (c :: rest) = _
  simp only [extractTokensF, if_pos h]
  congr 1
  apply extractTokensF_congr
  · rw [List.length_drop]
    have hL : ((c :: rest).takeWhile Char.isDigit).length ≤ rest.length + 1 := by
      simpa using length_takeWhile Char.isDigit (c :: rest)
    simp only [List.length_cons]
    omega
  · rfl

theorem extractTokens_cons_skip (c : Char) (rest : List Char)
    (h : ¬ 3 ≤ ((c :: rest).takeWhile Char.isDigit).length) :
    extractTokens (c :: rest) = extractTokens rest := by
  show extractTokensF (rest.length + 1) (c :: rest) = _
  simp only [extractTokensF, if_neg h]
  rfl

theorem maximalRuns_cons_digit (c : Char) (rest : List Char) (h : c.isDigit) :
    maximalRuns (c :: rest) =
      (c :: rest).takeWhile Char.isDigit ::
        maximalRuns ((c :: rest).dropWhile Char.isDigit) := by
  show maximalRunsF (rest.length + 1) (c :: rest) = _
  simp only [maximalRunsF, if_pos h]
  congr 1
  apply maximalRunsF_congr
  · rw [List.dropWhile_cons_of_pos h]
    have h1 : (rest.dropWhile Char.isDigit).length +
        (rest.takeWhile Char.isDigit).length = rest.length := by
      have h2 := congrArg List.length (rest.takeWhile_append_dropWhile Char.isDigit)
      simp only [List.length_append] at h2
      omega
    omega
  · rfl

theorem maximalRuns_cons_nondigit (c : Char) (rest : List Char) (h : ¬ c.isDigit) :
    maximalRuns (c :: rest) = maximalRuns rest := by
  show maximalRunsF (rest.length + 1) (c :: rest) = _
  simp only [maximalRunsF, if_neg h]
  rfl

theorem greedyChunks_short (run : List Char) (h : run.length < 3) :
    greedyChunks run = [] := by
  cases run with
  | nil => rfl
  | cons c r =>
    show greedyChunksF (r.length + 1) (c :: r) = []
    simp only [greedyChunksF]
    rw [if_neg (by omega)]

theorem greedyChunks_long (run : List Char) (h : 3 ≤ run.length) :
    greedyChunks run =
      run.take (min 4 run.length) :: greedyChunks (run.drop (min 4 run.length)) := by
  cases run with
  | nil => simp at h
  | cons c r =>
    show greedyChunksF (r.length + 1) (c :: r) = _
    simp only [greedyChunksF, if_pos h]
    congr 1
    apply greedyChunksF_congr
    · rw [List.length_drop]; simp only [List.length_cons] at h ⊢; omega
    · rfl

theorem extractTokens_run_append :
    ∀ (n : Nat) (ds t : List Char), ds.length ≤ n → (∀ c ∈ ds, c.isDigit) →
      (∀ c, t.head? = some c → c.isDigit = false) →
      extractTokens (ds ++ t) = greedyChunks ds ++ extractTokens t := by
  intro n
  induction n with
  | zero =>
    intro ds t h _ _
    rw [List.eq_nil_of_length_eq_zero (Nat.le_zero.mp h)]
    simp [greedyChunks, greedyChunksF_nil]
  | succ n ih =>
    intro ds t hlen hd ht
    cases ds with
    | nil => simp [greedyChunks, greedyChunksF_nil]
    | cons d ds' =>
      have hrun : ((d :: ds') ++ t).takeWhile Char.isDigit = d :: ds' :=
        takeWhile_append_of_all _ _ _ hd ht
      by_cases h3 : 3 ≤ (d :: ds').length
      · have hkle : min 4 (d :: ds').length ≤ (d :: ds').length := min_le_right _ _
        have hcons : (d :: ds') ++ t = d :: (ds' ++ t) := rfl
        rw [hcons] at hrun
        rw [show ((d :: ds') ++ t) = d :: (ds' ++ t) from rfl,
          extractTokens_cons_match d (ds' ++ t) (by rw [hrun]; exact h3), hrun, ← hcons,
          List.take_append_of_le_length hkle, List.drop_append_of_le_length hkle]
        rw [ih ((d :: ds').drop (min 4 (d :: ds').length)) t
          (by rw [List.length_drop]; simp only [List.length_cons] at hlen ⊢; omega)
          (fun c hc => hd c (List.mem_of_mem_drop hc)) ht]
        rw [greedyChunks_long _ h3]
        simp
      · have hcons : (d :: ds') ++ t = d :: (ds' ++ t) := rfl
        rw [hcons] at hrun
        rw [show ((d :: ds') ++ t) = d :: (ds' ++ t) from rfl,
          extractTokens_cons_skip d (ds' ++ t) (by rw [hrun]; exact h3)]
        rw [ih ds' t (by simp only [List.length_cons] at hlen; omega)
          (fun c hc => hd c (by simp [hc])) ht]
        rw [greedyChunks_short ds' (by simp only [List.length_cons] at h3; omega),
          greedyChunks_short (d :: ds') (by omega)]

theorem extractTokens_eq_chunked :
    ∀ (n : Nat) (text : List Char), text.length ≤ n →
      extractTokens text = ((maximalRuns text).map greedyChunks).flatten := by
  intro n
  induction n with
  | zero =>
    intro text h
    rw [List.eq_nil_of_length_eq_zero (Nat.le_zero.mp h)]
    rfl
  | succ n ih =>
    intro text hlen
    cases text with
    | nil => rfl
    | cons c rest =>
      by_cases hc : c.isDigit
      · have hrd : ∀ x ∈ (c :: rest).takeWhile Char.isDigit, x.isDigit :=
          fun x hx => List.mem_takeWhile_imp hx
        have hth : ∀ x, ((c :: rest).dropWhile Char.isDigit).head? = some x →
            x.isDigit = false := head_dropWhile_false _ _
        have hsplit : (c :: rest).takeWhile Char.isDigit ++
            (c :: rest).dropWhile Char.isDigit = c :: rest :=
          (c :: rest).takeWhile_append_dropWhile Char.isDigit
        have hrl : 1 ≤ ((c :: rest).takeWhile Char.isDigit).length := by
          rw [List.takeWhile_cons_of_pos hc]
          simp
        have htl : ((c :: rest).dropWhile Char.isDigit).length ≤ n := by
          have h2 := congrArg List.length hsplit
          simp only [List.length_append, List.length_cons] at h2
          simp only [List.length_cons] at hlen
          omega
        calc extractTokens (c :: rest)
            = extractTokens ((c :: rest).takeWhile Char.isDigit ++
                (c :: rest).dropWhile Char.isDigit) := by rw [hsplit]
          _ = greedyChunks ((c :: rest).takeWhile Char.isDigit) ++
                extractTokens ((c :: rest).dropWhile Char.isDigit) :=
              extractTokens_run_append _ _ _ le_rfl hrd hth
          _ = greedyChunks ((c :: rest).takeWhile Char.isDigit) ++
                ((maximalRuns ((c :: rest).dropWhile Char.isDigit)).map
                  greedyChunks).flatten := by rw [ih _ htl]
          _ = ((maximalRuns (c :: rest)).map greedyChunks).flatten := by
              rw [maximalRuns_cons_digit c rest hc]
              simp
      · rw [extractTokens_cons_skip c rest (by rw [List.takeWhile_cons_of_neg hc]; simp),
          maximalRuns_cons_nondigit c rest hc]
        exact ih rest (by simp only [List.length_cons] at hlen; omega)

theorem performOCR_nonneg (text : List Char) (s : Stats) (h : performOCR text = some s) :
    NonnegStats s := by
  simp only [performOCR] at h
  split at h
  · exact absurd h (by simp)
  · rw [Option.some.injEq] at h
    subst h
    refine ⟨?_, ?_, ?_, ?_, ?_, ?_, ?_, ?_, ?_, ?_⟩ <;> exact Int.natCast_nonneg _

theorem zeroStats_nonneg : NonnegStats zeroStats := by
  refine ⟨?_, ?_, ?_, ?_, ?_, ?_, ?_, ?_, ?_, ?_⟩ <;> exact le_refl 0

theorem updateStat_nonneg (s : Stats) (name : StatName) (f : Field) (v : Int)
    (hs : NonnegStats s) (hv : 0 ≤ v) : NonnegStats (updateStat s name f v) := by
  obtain ⟨h1, h2, h3, h4, h5, h6, h7, h8, h9, h10⟩ := hs
  cases name <;> cases f <;>
    exact ⟨by assumption, by assumption, by assumption, by assumption, by assumption,
      by assumption, by assumption, by assumption, by assumption, by assumption⟩

theorem stats_nonneg_fold :
    ∀ (es : List Event) (st : AppState), (∀ e ∈ es, GoodEvent e) →
      (∀ s, st.stats = some s → NonnegStats s) →
      ∀ s, (es.foldl step st).stats = some s → NonnegStats s := by
  intro es
  induction es with
  | nil => intro st _ hinv s hs; exact hinv s hs
  | cons e es ih =>
    intro st hgood hinv s hs
    refine ih (step st e) (fun x hx => hgood x (by simp [hx])) ?_ s hs
    intro s' hs'
    cases e with
    | capture text =>
      simp only [step] at hs'
      cases h : performOCR text with
      | some s₀ =>
        rw [h] at hs'
        simp only [Option.some.injEq] at hs'
        subst hs'
        exact performOCR_nonneg text s₀ h
      | none =>
        rw [h] at hs'
        simp only [Option.some.injEq] at hs'
        subst hs'
        exact zeroStats_nonneg
    | statChange name f v =>
      have hval : 0 ≤ (jsParseInt v).getD 0 :=
        hgood (Event.statChange name f v) (by simp)
      simp only [step] at hs'
      cases h : st.stats with
      | none => rw [h] at hs'; exact hinv s' hs'
      | some s₀ =>
        rw [h] at hs'
        simp only [Option.some.injEq] at hs'
        subst hs'
        exact updateStat_nonneg s₀ name f _ (hinv s₀ h) hval
    | selectDistance d =>
      simp only [step] at hs'
      exact hinv s' hs'
    | selectStrategy g =>
      simp only [step] at hs'
      exact hinv s' hs'

/-- Claim C1: for every StatBlock and every valid distance and strategy
category, each per-stat score equals `stat.current` times that stat's distance
coefficient times that stat's strategy coefficient, the total is the sum of
the five per-stat scores rounded to the nearest integer, and the coefficient
tables are exactly the short/mile/middle/long and
front-runner/pace-chaser/late-surger/closer rows given in the source. -/
theorem evaluation_formula (s : Stats) (d : Distance) (g : Strategy) :
    (calculateEvaluation s d g).individual.speed =
      (s.speed.current : ℚ) * (distanceCoef d).speed * (strategyCoef g).speed ∧
    (calculateEvaluation s d g).individual.stamina =
      (s.stamina.current : ℚ) * (distanceCoef d).stamina * (strategyCoef g).stamina ∧
    (calculateEvaluation s d g).individual.power =
      (s.power.current : ℚ) * (distanceCoef d).power * (strategyCoef g).power ∧
    (calculateEvaluation s d g).individual.guts =
      (s.guts.current : ℚ) * (distanceCoef d).guts * (strategyCoef g).guts ∧
    (calculateEvaluation s d g).individual.wisdom =
      (s.wisdom.current : ℚ) * (distanceCoef d).wisdom * (strategyCoef g).wisdom ∧
    (calculateEvaluation s d g).total =
      mathRound ((s.speed.current : ℚ) * (distanceCoef d).speed * (strategyCoef g).speed +
        (s.stamina.current : ℚ) * (distanceCoef d).stamina * (strategyCoef g).stamina +
        (s.power.current : ℚ) * (distanceCoef d).power * (strategyCoef g).power +
        (s.guts.current : ℚ) * (distanceCoef d).guts * (strategyCoef g).guts +
        (s.wisdom.current : ℚ) * (distanceCoef d).wisdom * (strategyCoef g).wisdom) ∧
    distanceCoef .short = ⟨1.0, 0.5, 1.0, 0.5, 0.5⟩ ∧
    distanceCoef .mile = ⟨1.0, 0.7, 1.0, 0.7, 0.7⟩ ∧
    distanceCoef .middle = ⟨1.0, 1.0, 1.0, 1.0, 1.0⟩ ∧
    distanceCoef .long = ⟨0.8, 1.2, 0.8, 1.2, 1.2⟩ ∧
    strategyCoef .nige = ⟨1.2, 1.1, 1.0, 1.0, 0.9⟩ ∧
    strategyCoef .senko = ⟨1.1, 1.0, 1.1, 1.0, 1.0⟩ ∧
    strategyCoef .sashi = ⟨1.0, 1.0, 1.1, 1.1, 1.0⟩ ∧
    strategyCoef .oikomi = ⟨0.9, 1.0, 1.2, 1.2, 1.1⟩ :=
  ⟨rfl, rfl, rfl, rfl, rfl, rfl, rfl, rfl, rfl, rfl, rfl, rfl, rfl, rfl⟩

/-- Claim C3: the rating label is determined by the fixed descending threshold
table (6000 → SS, 5500 → S, 5000 → A+, 4500 → A, 4000 → B, else C), with the
stated boundary values. -/
theorem rating_thresholds (t : Int) :
    (getRating t = "SS" ↔ 6000 ≤ t) ∧
    (getRating t = "S" ↔ 5500 ≤ t ∧ t < 6000) ∧
    (getRating t = "A+" ↔ 5000 ≤ t ∧ t < 5500) ∧
    (getRating t = "A" ↔ 4500 ≤ t ∧ t < 5000) ∧
    (getRating t = "B" ↔ 4000 ≤ t ∧ t < 4500) ∧
    (getRating t = "C" ↔ t < 4000) ∧
    getRating 6000 = "SS" ∧ getRating 5999 = "S" ∧ getRating 3999 = "C" := by
  refine ⟨?_, ?_, ?_, ?_, ?_, ?_, by decide, by decide, by decide⟩ <;>
    · unfold getRating
      split_ifs <;> simp_all <;> omega

/-- Claim C4: for the StatBlock whose five current values are all 1000,
middle distance with the front-runner (nige) strategy gives per-stat scores
[1200, 1100, 1000, 1000, 900], total 5200 and rating A+, while long distance
with the closer (oikomi) strategy gives per-stat scores
[720, 1200, 960, 1440, 1320], total 5640 and rating S.  (The max values play
no role in the evaluation; they are taken to be 1000 as well.) -/
theorem evaluation_examples :
    calculateEvaluation ⟨⟨1000, 1000⟩, ⟨1000, 1000⟩, ⟨1000, 1000⟩, ⟨1000, 1000⟩, ⟨1000, 1000⟩⟩
      .middle .nige = ⟨⟨1200, 1100, 1000, 1000, 900⟩, 5200, "A+"⟩ ∧
    calculateEvaluation ⟨⟨1000, 1000⟩, ⟨1000, 1000⟩, ⟨1000, 1000⟩, ⟨1000, 1000⟩, ⟨1000, 1000⟩⟩
      .long .oikomi = ⟨⟨720, 1200, 960, 1440, 1320⟩, 5640, "S"⟩ :=
  ⟨by decide, by decide⟩

/-- Claim C6: the total is the rounding of the sum of the five unrounded
per-stat scores, and this differs in general from the sum of the individually
rounded per-stat scores (witnessed at the all-ones StatBlock with mile
distance and the senko strategy, where the former is 4 and the latter 5). -/
theorem total_before_rounding :
    (∀ (s : Stats) (d : Distance) (g : Strategy),
      (calculateEvaluation s d g).total =
        mathRound ((calculateEvaluation s d g).individual.speed +
          (calculateEvaluation s d g).individual.stamina +
          (calculateEvaluation s d g).individual.power +
          (calculateEvaluation s d g).individual.guts +
          (calculateEvaluation s d g).individual.wisdom)) ∧
    (calculateEvaluation ⟨⟨1, 1⟩, ⟨1, 1⟩, ⟨1, 1⟩, ⟨1, 1⟩, ⟨1, 1⟩⟩ .mile .senko).total ≠
      mathRound (calculateEvaluation ⟨⟨1, 1⟩, ⟨1, 1⟩, ⟨1, 1⟩, ⟨1, 1⟩, ⟨1, 1⟩⟩
          .mile .senko).individual.speed +
        mathRound (calculateEvaluation ⟨⟨1, 1⟩, ⟨1, 1⟩, ⟨1, 1⟩, ⟨1, 1⟩, ⟨1, 1⟩⟩
          .mile .senko).individual.stamina +
        mathRound (calculateEvaluation ⟨⟨1, 1⟩, ⟨1, 1⟩, ⟨1, 1⟩, ⟨1, 1⟩, ⟨1, 1⟩⟩
          .mile .senko).individual.power +
        mathRound (calculateEvaluation ⟨⟨1, 1⟩, ⟨1, 1⟩, ⟨1, 1⟩, ⟨1, 1⟩, ⟨1, 1⟩⟩
          .mile .senko).individual.guts +
        mathRound (calculateEvaluation ⟨⟨1, 1⟩, ⟨1, 1⟩, ⟨1, 1⟩, ⟨1, 1⟩, ⟨1, 1⟩⟩
          .mile .senko).individual.wisdom :=
  ⟨fun _ _ _ => rfl, by decide⟩

/-- Claim C2: extraction signals failure (returns `none`) when the text
contains fewer than ten `/\d{3,4}/g` matches; with at least ten, the first
ten matches, in order of appearance, are parsed and mapped positionally to
(speed.current, speed.max, stamina.current, stamina.max, power.current,
power.max, guts.current, guts.max, wisdom.current, wisdom.max). -/
theorem extraction_positional (text : List Char) :
    ((extractTokens text).length < 10 → performOCR text = none) ∧
    (10 ≤ (extractTokens text).length →
      performOCR text = some
        ⟨⟨(((extractTokens text).map parseDigits).getD 0 0 : Int),
            (((extractTokens text).map parseDigits).getD 1 0 : Int)⟩,
          ⟨(((extractTokens text).map parseDigits).getD 2 0 : Int),
            (((extractTokens text).map parseDigits).getD 3 0 : Int)⟩,
          ⟨(((extractTokens text).map parseDigits).getD 4 0 : Int),
            (((extractTokens text).map parseDigits).getD 5 0 : Int)⟩,
          ⟨(((extractTokens text).map parseDigits).getD 6 0 : Int),
            (((extractTokens text).map parseDigits).getD 7 0 : Int)⟩,
          ⟨(((extractTokens text).map parseDigits).getD 8 0 : Int),
            (((extractTokens text).map parseDigits).getD 9 0 : Int)⟩⟩) := by
  constructor
  · intro h
    simp only [performOCR]
    rw [if_pos (by simpa using h)]
  · intro h
    simp only [performOCR]
    rw [if_neg (by simp only [List.length_map]; omega)]

/-- Witness for C2: on "12" (one short digit run) extraction fails; on a text
with exactly ten 3-digit runs the ten values are mapped positionally. -/
theorem extraction_positional_w :
    performOCR (String.toList "12") = none ∧
    performOCR (String.toList "100 200 300 400 500 600 700 800 900 110") =
      some ⟨⟨100, 200⟩, ⟨300, 400⟩, ⟨500, 600⟩, ⟨700, 800⟩, ⟨900, 110⟩⟩ := by
  constructor
  · exact (extraction_positional _).1 (by decide)
  · rw [(extraction_positional _).2 (by decide)]
    decide

/-- Counterexample to C5 as stated: on the text "12345", whose single
maximal digit run has length 5, the claim predicts no token at all, but the
code's greedy regex `/\d{3,4}/g` collects the token "1234". -/
theorem extraction_run5_counterexample :
    extractTokens (String.toList "12345") = [String.toList "1234"] ∧
    (maximalRuns (String.toList "12345")).filter
      (fun r => r.length == 3 || r.length == 4) = [] ∧
    extractTokens (String.toList "12345") ≠
      (maximalRuns (String.toList "12345")).filter
        (fun r => r.length == 3 || r.length == 4) :=
  ⟨by decide, by decide, by decide⟩

/-- Claim C5 (amended): the numeric tokens extraction collects are the
greedy, non-overlapping matches of `/\d{3,4}/g`, in order of appearance:
each maximal digit run is consumed greedily — `min 4 remaining` digits per
token while at least 3 digits remain.  Hence a run of length 3 or 4
contributes exactly itself and a run of length 1 or 2 contributes nothing,
as the original claim says, but a run of length 5 or more does contribute
tokens (its first 4 digits, and so on), contrary to the original claim. -/
theorem extraction_tokens_greedy (text : List Char) :
    extractTokens text = ((maximalRuns text).map greedyChunks).flatten ∧
    (∀ run : List Char, 3 ≤ run.length → run.length ≤ 4 → greedyChunks run = [run]) ∧
    (∀ run : List Char, run.length < 3 → greedyChunks run = []) := by
  refine ⟨extractTokens_eq_chunked text.length text le_rfl, ?_, greedyChunks_short⟩
  intro run h3 h4
  rw [greedyChunks_long run h3, show min 4 run.length = run.length from by omega,
    List.take_length, List.drop_length]
  rfl

/-- Witness for C5 (amended): a concrete text with runs of lengths 2, 3 and
5, plus the chunking facts for runs of lengths 3 and 2. -/
theorem extraction_tokens_greedy_w :
    extractTokens (String.toList "ab12 345 67890") =
      ((maximalRuns (String.toList "ab12 345 67890")).map greedyChunks).flatten ∧
    greedyChunks (String.toList "345") = [String.toList "345"] ∧
    greedyChunks (String.toList "12") = [] :=
  ⟨(extraction_tokens_greedy (String.toList "ab12 345 67890")).1,
    (extraction_tokens_greedy (String.toList "ab12 345 67890")).2.1
      (String.toList "345") (by decide) (by decide),
    (extraction_tokens_greedy (String.toList "ab12 345 67890")).2.2
      (String.toList "12") (by decide)⟩

/-- Claim C7: evaluation is deterministic — equal StatBlocks and categories
give identical EvaluationResults — and re-running the evaluation on an
unchanged StatBlock and categories (repeating a category selection repeats
the recomputation on the same inputs) leaves the stored state bit-identical. -/
theorem evaluation_deterministic :
    (∀ (s₁ s₂ : Stats) (d₁ d₂ : Distance) (g₁ g₂ : Strategy),
      s₁ = s₂ → d₁ = d₂ → g₁ = g₂ →
      calculateEvaluation s₁ d₁ g₁ = calculateEvaluation s₂ d₂ g₂) ∧
    (∀ (st : AppState) (d : Distance),
      step (step st (Event.selectDistance d)) (Event.selectDistance d) =
        step st (Event.selectDistance d)) ∧
    (∀ (st : AppState) (g : Strategy),
      step (step st (Event.selectStrategy g)) (Event.selectStrategy g) =
        step st (Event.selectStrategy g)) := by
  refine ⟨fun s₁ s₂ d₁ d₂ g₁ g₂ hs hd hg => by rw [hs, hd, hg], ?_, ?_⟩
  · intro st d
    cases st with
    | mk stats calculated distance strategy => cases stats <;> rfl
  · intro st g
    cases st with
    | mk stats calculated distance strategy => cases stats <;> rfl

/-- Witness for C7: determinism instantiated at a concrete input. -/
theorem evaluation_deterministic_w :
    calculateEvaluation zeroStats Distance.middle Strategy.nige =
      calculateEvaluation zeroStats Distance.middle Strategy.nige :=
  evaluation_deterministic.1 zeroStats zeroStats Distance.middle Distance.middle
    Strategy.nige Strategy.nige rfl rfl rfl

/-- Counterexample to C8 as stated: capture a valid screen (stats and result
populated), then a failing capture.  The StatBlock is replaced by the zeroed
placeholder but `calculated` is NOT recomputed: it still holds the old
evaluation, which differs from the evaluation of the current (zeroed)
StatBlock under the current categories. -/
theorem recompute_counterexample :
    (runEvents [Event.capture (String.toList "100 200 300 400 500 600 700 800 900 110"),
        Event.capture (String.toList "x")]).stats = some zeroStats ∧
    (runEvents [Event.capture (String.toList "100 200 300 400 500 600 700 800 900 110"),
        Event.capture (String.toList "x")]).distance = Distance.middle ∧
    (runEvents [Event.capture (String.toList "100 200 300 400 500 600 700 800 900 110"),
        Event.capture (String.toList "x")]).strategy = Strategy.nige ∧
    (runEvents [Event.capture (String.toList "100 200 300 400 500 600 700 800 900 110"),
        Event.capture (String.toList "x")]).calculated ≠
      some (calculateEvaluation zeroStats Distance.middle Strategy.nige) :=
  ⟨by decide, by decide, by decide, by decide⟩

/-- Claim C8 (amended): after a successful extraction, a manual stat edit
(stats present), a distance change (stats present) or a strategy change
(stats present), the stored EvaluationResult equals the evaluation function
applied to the current StatBlock and the current categories.  On extraction
failure, however, the StatBlock is zeroed while the stored EvaluationResult
is left unchanged — it is not recomputed, so it can go stale. -/
theorem recompute_on_change :
    (∀ (st : AppState) (text : List Char) (s : Stats), performOCR text = some s →
      (step st (Event.capture text)).stats = some s ∧
      (step st (Event.capture text)).calculated =
        some (calculateEvaluation s (step st (Event.capture text)).distance
          (step st (Event.capture text)).strategy)) ∧
    (∀ (st : AppState) (s : Stats) (name : StatName) (f : Field) (v : List Char),
      st.stats = some s →
      (step st (Event.statChange name f v)).stats =
        some (updateStat s name f ((jsParseInt v).getD 0)) ∧
      (step st (Event.statChange name f v)).calculated =
        some (calculateEvaluation (updateStat s name f ((jsParseInt v).getD 0))
          (step st (Event.statChange name f v)).distance
          (step st (Event.statChange name f v)).strategy)) ∧
    (∀ (st : AppState) (s : Stats) (d : Distance), st.stats = some s →
      (step st (Event.selectDistance d)).stats = some s ∧
      (step st (Event.selectDistance d)).distance = d ∧
      (step st (Event.selectDistance d)).calculated =
        some (calculateEvaluation s d (step st (Event.selectDistance d)).strategy)) ∧
    (∀ (st : AppState) (s : Stats) (g : Strategy), st.stats = some s →
      (step st (Event.selectStrategy g)).stats = some s ∧
      (step st (Event.selectStrategy g)).strategy = g ∧
      (step st (Event.selectStrategy g)).calculated =
        some (calculateEvaluation s (step st (Event.selectStrategy g)).distance g)) ∧
    (∀ (st : AppState) (text : List Char), performOCR text = none →
      (step st (Event.capture text)).stats = some zeroStats ∧
      (step st (Event.capture text)).calculated = st.calculated) := by
  refine ⟨?_, ?_, ?_, ?_, ?_⟩
  · intro st text s h
    simp [step, h]
  · intro st s name f v h
    simp [step, h]
  · intro st s d h
    simp [step, h]
  · intro st s g h
    simp [step, h]
  · intro st text h
    simp [step, h]

/-- Witness for C8 (amended): the failure branch instantiated from the
initial state with the unreadable text "x". -/
theorem recompute_on_change_w :
    (step initState (Event.capture (String.toList "x"))).stats = some zeroStats ∧
    (step initState (Event.capture (String.toList "x"))).calculated =
      initState.calculated :=
  recompute_on_change.2.2.2.2 initState (String.toList "x") (by decide)

/-- Counterexample to C9 as stated: from the initial state, a successful
capture followed by a manual edit typing "-500" into speed.current yields a
reachable StatBlock with a negative field (`parseInt("-500") || 0` is -500
and `handleStatChange` stores it unvalidated). -/
theorem nonneg_counterexample :
    (runEvents [Event.capture (String.toList "100 200 300 400 500 600 700 800 900 110"),
        Event.statChange StatName.speed Field.current (String.toList "-500")]).stats =
      some ⟨⟨-500, 200⟩, ⟨300, 400⟩, ⟨500, 600⟩, ⟨700, 800⟩, ⟨900, 110⟩⟩ ∧
    (-500 : Int) < 0 :=
  ⟨by decide, by decide⟩

/-- Claim C9 (amended): StatBlocks produced by successful extraction are
non-negative, the zeroed placeholder is non-negative, and non-negativity is
preserved along every event sequence whose manual edits store non-negative
values (in particular parse failures, which store 0).  A manual edit whose
input parses to a negative number, however, stores that negative value, so
the unrestricted claim fails (see the counterexample). -/
theorem nonneg_invariant :
    (∀ (text : List Char) (s : Stats), performOCR text = some s → NonnegStats s) ∧
    NonnegStats zeroStats ∧
    (∀ es : List Event, (∀ e ∈ es, GoodEvent e) →
      ∀ s, (runEvents es).stats = some s → NonnegStats s) :=
  ⟨performOCR_nonneg, zeroStats_nonneg,
    fun es hg => stats_nonneg_fold es initState hg
      (fun s hs => by simp [initState] at hs)⟩

/-- Witness for C9 (amended): the zeroed placeholder is non-negative, and a
trace whose edit input fails to parse (stored as 0) keeps the reachable
StatBlock non-negative. -/
theorem nonneg_invariant_w :
    NonnegStats zeroStats ∧
    NonnegStats ⟨⟨0, 200⟩, ⟨300, 400⟩, ⟨500, 600⟩, ⟨700, 800⟩, ⟨900, 110⟩⟩ := by
  constructor
  · exact nonneg_invariant.2.1
  · refine nonneg_invariant.2.2
      [Event.capture (String.toList "100 200 300 400 500 600 700 800 900 110"),
        Event.statChange StatName.speed Field.current (String.toList "abc")] ?_
      ⟨⟨0, 200⟩, ⟨300, 400⟩, ⟨500, 600⟩, ⟨700, 800⟩, ⟨900, 110⟩⟩ (by decide)
    intro e he
    simp only [List.mem_cons, List.not_mem_nil, or_false] at he
    rcases he with rfl | rfl
    · trivial
    · show 0 ≤ (jsParseInt (String.toList "abc")).getD 0
      decide

/-- Claim C10: a manual stat edit whose input does not parse as a number is
silently coerced to zero: the edit completes (the addressed field becomes 0,
the categories are untouched, no error channel exists in `handleStatChange`)
and the evaluation is recomputed on the resulting StatBlock. -/
theorem parse_failure_zero (st : AppState) (s : Stats) (name : StatName) (f : Field)
    (v : List Char) (hs : st.stats = some s) (hv : jsParseInt v = none) :
    (step st (Event.statChange name f v)).stats = some (updateStat s name f 0) ∧
    (step st (Event.statChange name f v)).calculated =
      some (calculateEvaluation (updateStat s name f 0) st.distance st.strategy) ∧
    (step st (Event.statChange name f v)).distance = st.distance ∧
    (step st (Event.statChange name f v)).strategy = st.strategy := by
  simp [step, hs, hv]

/-- Witness for C10: editing guts.max with the non-numeric input "abc" from a
state holding the zeroed StatBlock. -/
theorem parse_failure_zero_w :
    (step ⟨some zeroStats, none, Distance.middle, Strategy.nige⟩
        (Event.statChange StatName.guts Field.max (String.toList "abc"))).stats =
      some (updateStat zeroStats StatName.guts Field.max 0) ∧
    (step ⟨some zeroStats, none, Distance.middle, Strategy.nige⟩
        (Event.statChange StatName.guts Field.max (String.toList "abc"))).calculated =
      some (calculateEvaluation (updateStat zeroStats StatName.guts Field.max 0)
        Distance.middle Strategy.nige) ∧
    (step ⟨some zeroStats, none, Distance.middle, Strategy.nige⟩
        (Event.statChange StatName.guts Field.max (String.toList "abc"))).distance =
      Distance.middle ∧
    (step ⟨some zeroStats, none, Distance.middle, Strategy.nige⟩
        (Event.statChange StatName.guts Field.max (String.toList "abc"))).strategy =
      Strategy.nige :=
  parse_failure_zero ⟨some zeroStats, none, Distance.middle, Strategy.nige⟩ zeroStats
    StatName.guts Field.max (String.toList "abc") rfl (by decide)

end

end Uma
